import Mathlib

/-!
# Package `server`: launchers and graceful shutdown

An embedding of `server.go`: the two launchers `StartDev` and `StartProd`
and the shutdown coordinator `graceful`.

Every goroutine is straight-line code, so each one is a program counter
that moves one source statement at a time.  Calls into the Go libraries
that block (`<-stop`, `srv.ListenAndServeTLS`, `srv.Shutdown`,
`http.ListenAndServe`) or read the outside world (`time.Now` inside
`context.WithTimeout`, signal delivery) are completed by actions of the
environment.  A schedule is a list of actions; a run folds the step
function over it and records every effect, in order, in a trace.
-/

namespace server

/-! ## Library values the program passes around -/

/-- Type `time.Duration`: a count of nanoseconds. -/
abbrev Duration := Int

/-- An instant on the wall clock, in nanoseconds. -/
abbrev Time := Int

/-- Constant `time.Second`. -/
def Second : Duration := 1000000000

/-- Decimal digits of `v`, as `fmtInt` of package `time` writes them. -/
def fmtInt (v : Nat) : String := Nat.repr v

/-- Loop of `fmtFrac` of package `time`: walks `prec` digits from the least
significant one and keeps a digit once a non-zero digit has been seen. -/
def fmtFracLoop : Nat → Nat → Bool → String → String × Bool × Nat
  | 0, v, print, buf => (buf, print, v)
  | i + 1, v, print, buf =>
    let digit := v % 10
    let print := print || digit != 0
    fmtFracLoop i (v / 10) print
      (if print then (Char.ofNat (digit + 48)).toString ++ buf else buf)

/-- Function `fmtFrac` of package `time`: the fraction of `v / 10^prec`
without trailing zeros (and without the point when it is zero), together
with `v / 10^prec`. -/
def fmtFrac (v prec : Nat) : String × Nat :=
  let r := fmtFracLoop prec v false ""
  (if r.2.1 then "." ++ r.1 else r.1, r.2.2)

/-- Method `String` of `time.Duration`, which the verb `%s` applies to the
drain budget: `72h3m0.5s` style, smaller units below one second. -/
def durationString (d : Duration) : String :=
  let u := d.natAbs
  let body :=
    if u < 1000000000 then
      if u = 0 then "0s"
      else if u < 1000 then fmtInt u ++ "ns"
      else if u < 1000000 then
        let r := fmtFrac u 3
        fmtInt r.2 ++ r.1 ++ "µs"
      else
        let r := fmtFrac u 6
        fmtInt r.2 ++ r.1 ++ "ms"
    else
      let r := fmtFrac u 9
      let secs := fmtInt (r.2 % 60) ++ r.1 ++ "s"
      let mins := r.2 / 60
      if mins > 0 then
        let ms := fmtInt (mins % 60) ++ "m" ++ secs
        let hours := mins / 60
        if hours > 0 then fmtInt hours ++ "h" ++ ms else ms
      else secs
  if d < 0 then "-" ++ body else body

/-- The signals the model delivers.  `other` stands for a signal that is
not in the set given to `signal.Notify` and on which the Go runtime takes
no action by default. -/
inductive Signal where
  | interrupt
  | sigterm
  | other
  deriving DecidableEq

/-- Non-nil values of Go's `error`. -/
inductive Error where
  | ErrServerClosed
  | DeadlineExceeded
  | other (msg : String)
  deriving DecidableEq

/-- Method `Error()` of an error: the text `%v` and `log.Fatal` print. -/
def Error.text : Error → String
  | .ErrServerClosed => "http: Server closed"
  | .DeadlineExceeded => "context deadline exceeded"
  | .other msg => msg

/-- Values of `autocert.Manager.Prompt`. -/
inductive Prompt where
  | AcceptTOS
  deriving DecidableEq

/-- Values of `autocert.HostPolicy`. -/
inductive HostPolicy where
  | HostWhitelist (hosts : List String)
  deriving DecidableEq

/-- Values of `autocert.Cache`. -/
inductive Cache where
  | DirCache (dir : String)
  deriving DecidableEq

/-- The fields of `autocert.Manager` that `StartProd` sets. -/
structure Manager where
  Prompt : server.Prompt
  HostPolicy : server.HostPolicy
  Cache : server.Cache
  deriving DecidableEq

/-- Certificate callbacks: the method value `certManager.GetCertificate`. -/
inductive CertSource where
  | GetCertificate (m : Manager)
  deriving DecidableEq

/-- The field of `tls.Config` that `StartProd` sets. -/
structure TLSConfig where
  GetCertificate : CertSource
  deriving DecidableEq

/-- Handlers of the plaintext listener: `certManager.HTTPHandler(nil)`. -/
inductive RedirectHandler where
  | HTTPHandler (m : Manager)
  deriving DecidableEq

/-- The fields of `http.Server` the launchers set; a field a launcher
leaves out has Go's zero value (`0`, `nil`). -/
structure HttpServer (H : Type) where
  Addr : String
  Handler : H
  ReadTimeout : Duration
  WriteTimeout : Duration
  IdleTimeout : Duration
  TLSConfig : Option server.TLSConfig
  deriving DecidableEq

/-! ## Effects -/

/-- One entry of the operational log per call of the logger.  The logger
ends every entry with one newline and puts a timestamp in front; neither
is part of the entry. -/
inductive LogEntry where
  | devBanner (addr : String)
  | prodBanner
  | shuttingDown (timeout : Duration)
  | shutdownError (err : Error)
  | stopped
  | fatal (err : Error)
  deriving DecidableEq

/-- The text of a log entry, after formatting. -/
def LogEntry.text : LogEntry → String
  | .devBanner addr => "Running development server on: https://" ++ addr
  | .prodBanner => "Running production server..."
  | .shuttingDown timeout => "Server shutting down, timeout: " ++ durationString timeout
  | .shutdownError err => "Error: " ++ err.text
  | .stopped => "Server stopped"
  | .fatal err => err.text

/-- How the process ended. -/
inductive Exit where
  | code (n : Nat)
  | killed (sig : Signal)
  deriving DecidableEq

/-- Who performed an effect. -/
inductive Thread where
  | main
  | coordinator
  | redirect
  | runtime
  deriving DecidableEq

/-- The effects a run records. -/
inductive Event (H : Type) where
  | log (e : LogEntry)
  | goRedirect (m : Manager)
  | goGraceful (srv : HttpServer H) (timeout : Duration)
  | listenAndServeTLS (srv : HttpServer H) (certFile keyFile : String)
  | listenAndServeTLSRet (err : Error)
  | listenAndServe (addr : String) (h : RedirectHandler)
  | listenAndServeRet (err : Error)
  | exit (code : Nat)
  | makeChan (capacity : Nat)
  | notify (sigs : List Signal)
  | recv (sig : Signal)
  | withTimeout (now : Time) (timeout : Duration)
  | shutdown (srv : HttpServer H) (deadline : Time)
  | shutdownRet (err : Option Error)
  | cancel
  | killed (sig : Signal)
  deriving DecidableEq

/-! ## Program points -/

/-- Program points of a launcher (`StartDev` or `StartProd`). -/
inductive MainPc where
  | entry
  | redirectStarted
  | bannerLogged
  | gracefulStarted
  | serving
  | serveReturned (err : Error)
  | fatalLogged (err : Error)
  | exited (err : Error)
  deriving DecidableEq

/-- Program points of `graceful`, with the locals bound so far: the
signal read from `stop`, the clock reading taken by
`context.WithTimeout`, the result of `srv.Shutdown`. -/
inductive GracefulPc where
  | entry
  | chanMade
  | waiting
  | received (sig : Signal)
  | ctxMade (sig : Signal) (now : Time)
  | beginLogged (sig : Signal) (now : Time)
  | stopping (sig : Signal) (now : Time)
  | stopReturned (sig : Signal) (now : Time) (err : Option Error)
  | outcomeLogged (sig : Signal) (now : Time) (err : Option Error)
  | returned (sig : Signal) (now : Time) (err : Option Error)
  deriving DecidableEq

/-- Program points of the goroutine `StartProd` starts for the plaintext
listener. -/
inductive RedirectPc where
  | entry
  | listening
  | listenReturned (err : Error)
  | fatalLogged (err : Error)
  | exited (err : Error)
  deriving DecidableEq

/-- A running `graceful(srv, timeout)`. -/
structure Coordinator (H : Type) where
  srv : HttpServer H
  timeout : Duration
  pc : GracefulPc
  deriving DecidableEq

/-- The running plaintext-listener goroutine, with the captured
`certManager`. -/
structure Redirect where
  certManager : Manager
  pc : RedirectPc
  deriving DecidableEq

/-- The state of the process. -/
structure State (H : Type) where
  /-- where the launcher is -/
  main : MainPc
  /-- the `graceful` goroutine, once started -/
  coord : Option (Coordinator H)
  /-- the plaintext-listener goroutine, once started -/
  redirect : Option Redirect
  /-- contents of the channel `stop`, whose capacity is 1 -/
  stop : Option Signal
  /-- the signals registered with `signal.Notify` -/
  notified : List Signal
  /-- set once the process has ended -/
  exit : Option Exit
  /-- every effect so far, oldest first -/
  trace : List (Thread × Event H)
  deriving DecidableEq

/-- Appends one effect of thread `t` to the trace. -/
def State.emit {H : Type} (s : State H) (t : Thread) (e : Event H) : State H :=
  { s with trace := s.trace ++ [(t, e)] }

/-- What a schedule is made of: a goroutine runs its next statement, or
the environment completes a call or delivers a signal. -/
inductive Action where
  | main
  | coordinator
  | redirect
  | signal (sig : Signal)
  | clock (now : Time)
  | serveReturns (err : Error)
  | shutdownReturns (err : Option Error)
  | redirectReturns (err : Error)
  deriving DecidableEq

/-- The function a run starts in, with its arguments. -/
inductive Call (H : Type) where
  | StartDev (h : H) (addr certFile keyFile : String)
  | StartProd (h : H) (hosts : List String)
  | graceful (srv : HttpServer H) (timeout : Duration)
  deriving DecidableEq

/-! ## The program -/

/-- The `http.Server` literal of `StartDev`. -/
def devServer {H : Type} (h : H) (addr : String) : HttpServer H :=
  { ReadTimeout := 5 * Second
    WriteTimeout := 5 * Second
    Addr := addr
    Handler := h
    IdleTimeout := 0
    TLSConfig := none }

/-- The `autocert.Manager` literal of `StartProd`. -/
def certManager (hosts : List String) : Manager :=
  { Prompt := .AcceptTOS
    HostPolicy := .HostWhitelist hosts
    Cache := .DirCache "certs" }

/-- The `http.Server` literal of `StartProd`. -/
def prodServer {H : Type} (h : H) (hosts : List String) : HttpServer H :=
  { Addr := ":https"
    ReadTimeout := 5 * Second
    WriteTimeout := 10 * Second
    IdleTimeout := 120 * Second
    TLSConfig := some { GetCertificate := .GetCertificate (certManager hosts) }
    Handler := h }

/-- Function `graceful`, one statement per step.  At a blocking call the
goroutine moves only on the action that completes the call. -/
def graceful {H : Type} (srv : HttpServer H) (timeout : Duration) (pc : GracefulPc)
    (a : Action) (s : State H) : State H :=
  let goto (s : State H) (pc : GracefulPc) : State H :=
    { s with coord := some { srv := srv, timeout := timeout, pc := pc } }
  match pc, a with
  -- stop := make(chan os.Signal, 1)
  | .entry, .coordinator =>
    goto ({ s with stop := none }.emit .coordinator (.makeChan 1)) .chanMade
  -- signal.Notify(stop, os.Interrupt, syscall.SIGTERM)
  | .chanMade, .coordinator =>
    goto ({ s with notified := [.interrupt, .sigterm] }.emit .coordinator
      (.notify [.interrupt, .sigterm])) .waiting
  -- <-stop
  | .waiting, .coordinator =>
    match s.stop with
    | none => s
    | some sig => goto ({ s with stop := none }.emit .coordinator (.recv sig)) (.received sig)
  -- ctx, cancel := context.WithTimeout(context.Background(), timeout)
  | .received sig, .clock now =>
    goto (s.emit .coordinator (.withTimeout now timeout)) (.ctxMade sig now)
  -- log.Printf("Server shutting down, timeout: %s", timeout)
  | .ctxMade sig now, .coordinator =>
    goto (s.emit .coordinator (.log (.shuttingDown timeout))) (.beginLogged sig now)
  -- srv.Shutdown(ctx): the call
  | .beginLogged sig now, .coordinator =>
    goto (s.emit .coordinator (.shutdown srv (now + timeout))) (.stopping sig now)
  -- srv.Shutdown(ctx): the return, err bound
  | .stopping sig now, .shutdownReturns err =>
    goto (s.emit .coordinator (.shutdownRet err)) (.stopReturned sig now err)
  -- if err != nil { log.Printf("Error: %v\n", err) } else { log.Println("Server stopped") }
  | .stopReturned sig now err, .coordinator =>
    match err with
    | some e => goto (s.emit .coordinator (.log (.shutdownError e))) (.outcomeLogged sig now err)
    | none => goto (s.emit .coordinator (.log .stopped)) (.outcomeLogged sig now err)
  -- defer cancel(), run on return
  | .outcomeLogged sig now err, .coordinator =>
    goto (s.emit .coordinator .cancel) (.returned sig now err)
  | _, _ => s

/-- The tail both launchers share: `log.Fatal(srv.ListenAndServeTLS(certFile, keyFile))`,
that is the call, its return, the print of the error and `os.Exit(1)`. -/
def serveAndDie {H : Type} (srv : HttpServer H) (certFile keyFile : String) (a : Action)
    (s : State H) : State H :=
  match s.main, a with
  | .gracefulStarted, .main =>
    { s.emit .main (.listenAndServeTLS srv certFile keyFile) with main := .serving }
  | .serving, .serveReturns err =>
    { s.emit .main (.listenAndServeTLSRet err) with main := .serveReturned err }
  | .serveReturned err, .main =>
    { s.emit .main (.log (.fatal err)) with main := .fatalLogged err }
  | .fatalLogged err, .main =>
    { s.emit .main (.exit 1) with main := .exited err, exit := some (.code 1) }
  | _, _ => s

/-- Function `StartDev`, one statement per step. -/
def StartDev {H : Type} (h : H) (addr certFile keyFile : String) (a : Action)
    (s : State H) : State H :=
  let srv : HttpServer H := devServer h addr
  match s.main, a with
  -- log.Printf("Running development server on: https://%s\n", addr)
  | .entry, .main =>
    { s.emit .main (.log (.devBanner addr)) with main := .bannerLogged }
  -- go graceful(srv, 30*time.Second)
  | .bannerLogged, .main =>
    { s.emit .main (.goGraceful srv (30 * Second)) with
      main := .gracefulStarted
      coord := some { srv := srv, timeout := 30 * Second, pc := .entry } }
  -- log.Fatal(srv.ListenAndServeTLS(certFile, keyFile))
  | _, _ => serveAndDie srv certFile keyFile a s

/-- Function `StartProd`, one statement per step. -/
def StartProd {H : Type} (h : H) (hosts : List String) (a : Action) (s : State H) : State H :=
  let srv : HttpServer H := prodServer h hosts
  match s.main, a with
  -- go func() { ... }()
  | .entry, .main =>
    { s.emit .main (.goRedirect (certManager hosts)) with
      main := .redirectStarted
      redirect := some { certManager := certManager hosts, pc := .entry } }
  -- log.Println("Running production server...")
  | .redirectStarted, .main =>
    { s.emit .main (.log .prodBanner) with main := .bannerLogged }
  -- go graceful(srv, 60*time.Second)
  | .bannerLogged, .main =>
    { s.emit .main (.goGraceful srv (60 * Second)) with
      main := .gracefulStarted
      coord := some { srv := srv, timeout := 60 * Second, pc := .entry } }
  -- log.Fatal(srv.ListenAndServeTLS("", ""))
  | _, _ => serveAndDie srv "" "" a s

/-- The function literal of `StartProd`:
`log.Fatal(http.ListenAndServe(":http", certManager.HTTPHandler(nil)))`. -/
def redirectListener {H : Type} (m : Manager) (pc : RedirectPc) (a : Action)
    (s : State H) : State H :=
  let goto (s : State H) (pc : RedirectPc) : State H :=
    { s with redirect := some { certManager := m, pc := pc } }
  match pc, a with
  | .entry, .redirect =>
    goto (s.emit .redirect (.listenAndServe ":http" (.HTTPHandler m))) .listening
  | .listening, .redirectReturns err =>
    goto (s.emit .redirect (.listenAndServeRet err)) (.listenReturned err)
  | .listenReturned err, .redirect =>
    goto (s.emit .redirect (.log (.fatal err))) (.fatalLogged err)
  | .fatalLogged err, .redirect =>
    { goto (s.emit .redirect (.exit 1)) (.exited err) with exit := some (.code 1) }
  | _, _ => s

/-- Delivery of a signal by the operating system.  A signal registered
with `signal.Notify` is sent to `stop` without blocking, so it is dropped
when the buffer is full.  An interrupt or SIGTERM nobody registered ends
the process, the default of the Go runtime. -/
def deliver {H : Type} (sig : Signal) (s : State H) : State H :=
  if sig ∈ s.notified then
    match s.stop with
    | none => { s with stop := some sig }
    | some _ => s
  else
    match sig with
    | .other => s
    | _ => { s.emit .runtime (.killed sig) with exit := some (.killed sig) }

/-- One step of the process started by call `c`.  Nothing moves once the
process has ended. -/
def step {H : Type} (c : Call H) (s : State H) (a : Action) : State H :=
  if s.exit.isSome then s
  else
    match a with
    | .signal sig => deliver sig s
    | .main | .serveReturns _ =>
      match c with
      | .StartDev h addr certFile keyFile => StartDev h addr certFile keyFile a s
      | .StartProd h hosts => StartProd h hosts a s
      | .graceful _ _ => s
    | .coordinator | .clock _ | .shutdownReturns _ =>
      match s.coord with
      | some g => graceful g.srv g.timeout g.pc a s
      | none => s
    | .redirect | .redirectReturns _ =>
      match s.redirect with
      | some r => redirectListener r.certManager r.pc a s
      | none => s

/-- The state in which call `c` starts.  A direct call of `graceful` runs
as the coordinator from the first step. -/
def init {H : Type} : Call H → State H
  | .graceful srv timeout =>
    { main := .entry, coord := some { srv := srv, timeout := timeout, pc := .entry },
      redirect := none, stop := none, notified := [], exit := none, trace := [] }
  | _ =>
    { main := .entry, coord := none, redirect := none, stop := none, notified := [],
      exit := none, trace := [] }

/-- Runs a schedule from a state. -/
def run {H : Type} (c : Call H) (s : State H) (sched : List Action) : State H :=
  sched.foldl (step c) s

/-- Runs a schedule from the start of call `c`. -/
def exec {H : Type} (c : Call H) (sched : List Action) : State H :=
  run c (init c) sched

/-- The log entries of a trace, in order. -/
def logOf {H : Type} (tr : List (Thread × Event H)) : List LogEntry :=
  tr.filterMap fun x => match x.2 with
    | .log e => some e
    | _ => none

/-- The lines of the operational log of a trace, in order. -/
def logLines {H : Type} (tr : List (Thread × Event H)) : List String :=
  (logOf tr).map LogEntry.text

/-- The effects of thread `t` in a trace, in order. -/
def proj {H : Type} (t : Thread) (tr : List (Thread × Event H)) : List (Event H) :=
  (tr.filter fun x => x.1 = t).map Prod.snd

/-! ## What each thread has done, and the invariant of every run -/

/-- The server the coordinator of call `c` is given. -/
def Call.srv {H : Type} : Call H → HttpServer H
  | .StartDev h addr _ _ => devServer h addr
  | .StartProd h hosts => prodServer h hosts
  | .graceful srv _ => srv

/-- The drain budget the coordinator of call `c` is given. -/
def Call.budget {H : Type} : Call H → Duration
  | .StartDev _ _ _ _ => 30 * Second
  | .StartProd _ _ => 60 * Second
  | .graceful _ timeout => timeout

/-- The error a launcher holds, once the serve call has returned. -/
def MainPc.err : MainPc → Error
  | .serveReturned e | .fatalLogged e | .exited e => e
  | _ => .ErrServerClosed

/-- The effects of a launcher in program order, for serve error `e`. -/
def mainScript {H : Type} (c : Call H) (e : Error) : List (Event H) :=
  match c with
  | .StartDev h addr certFile keyFile =>
    [.log (.devBanner addr), .goGraceful (devServer h addr) (30 * Second),
     .listenAndServeTLS (devServer h addr) certFile keyFile,
     .listenAndServeTLSRet e, .log (.fatal e), .exit 1]
  | .StartProd h hosts =>
    [.goRedirect (certManager hosts), .log .prodBanner,
     .goGraceful (prodServer h hosts) (60 * Second),
     .listenAndServeTLS (prodServer h hosts) "" "",
     .listenAndServeTLSRet e, .log (.fatal e), .exit 1]
  | .graceful _ _ => []

/-- How many statements of its script a launcher has run. -/
def MainPc.rank {H : Type} (c : Call H) (pc : MainPc) : Nat :=
  match c with
  | .StartDev _ _ _ _ =>
    match pc with
    | .entry => 0 | .redirectStarted => 0 | .bannerLogged => 1 | .gracefulStarted => 2
    | .serving => 3 | .serveReturned _ => 4 | .fatalLogged _ => 5 | .exited _ => 6
  | .StartProd _ _ =>
    match pc with
    | .entry => 0 | .redirectStarted => 1 | .bannerLogged => 2 | .gracefulStarted => 3
    | .serving => 4 | .serveReturned _ => 5 | .fatalLogged _ => 6 | .exited _ => 7
  | .graceful _ _ => 0

/-- The effects a launcher at `pc` has performed. -/
def mainHist {H : Type} (c : Call H) (pc : MainPc) : List (Event H) :=
  (mainScript c pc.err).take (pc.rank c)

/-- The signal `graceful` read, once it has one. -/
def GracefulPc.sig : GracefulPc → Signal
  | .received s | .ctxMade s _ | .beginLogged s _ | .stopping s _
  | .stopReturned s _ _ | .outcomeLogged s _ _ | .returned s _ _ => s
  | _ => .interrupt

/-- The clock reading `graceful` took, once it has one. -/
def GracefulPc.now : GracefulPc → Time
  | .ctxMade _ t | .beginLogged _ t | .stopping _ t
  | .stopReturned _ t _ | .outcomeLogged _ t _ | .returned _ t _ => t
  | _ => 0

/-- The result of `srv.Shutdown`, once `graceful` has it. -/
def GracefulPc.err : GracefulPc → Option Error
  | .stopReturned _ _ e | .outcomeLogged _ _ e | .returned _ _ e => e
  | _ => none

/-- How many statements `graceful` has run. -/
def GracefulPc.rank : GracefulPc → Nat
  | .entry => 0 | .chanMade => 1 | .waiting => 2 | .received _ => 3 | .ctxMade _ _ => 4
  | .beginLogged _ _ => 5 | .stopping _ _ => 6 | .stopReturned _ _ _ => 7
  | .outcomeLogged _ _ _ => 8 | .returned _ _ _ => 9

/-- The outcome line `graceful` writes for a result of `srv.Shutdown`. -/
def outcome : Option Error → LogEntry
  | some e => .shutdownError e
  | none => .stopped

/-- The effects of `graceful(srv, timeout)` in program order, for the
signal, clock reading and stop result it meets. -/
def gracefulScript {H : Type} (srv : HttpServer H) (timeout : Duration) (sig : Signal)
    (now : Time) (err : Option Error) : List (Event H) :=
  [.makeChan 1, .notify [.interrupt, .sigterm], .recv sig, .withTimeout now timeout,
   .log (.shuttingDown timeout), .shutdown srv (now + timeout), .shutdownRet err,
   .log (outcome err), .cancel]

/-- The effects the coordinator has performed. -/
def coordHist {H : Type} : Option (Coordinator H) → List (Event H)
  | none => []
  | some g => (gracefulScript g.srv g.timeout g.pc.sig g.pc.now g.pc.err).take g.pc.rank

/-- The error the plaintext listener returned, once it has. -/
def RedirectPc.err : RedirectPc → Error
  | .listenReturned e | .fatalLogged e | .exited e => e
  | _ => .ErrServerClosed

/-- How many statements the plaintext-listener goroutine has run. -/
def RedirectPc.rank : RedirectPc → Nat
  | .entry => 0 | .listening => 1 | .listenReturned _ => 2 | .fatalLogged _ => 3
  | .exited _ => 4

/-- The effects of the plaintext-listener goroutine in program order. -/
def redirectScript {H : Type} (m : Manager) (e : Error) : List (Event H) :=
  [.listenAndServe ":http" (.HTTPHandler m), .listenAndServeRet e, .log (.fatal e), .exit 1]

/-- The effects the plaintext-listener goroutine has performed. -/
def redirectHist {H : Type} : Option Redirect → List (Event H)
  | none => []
  | some r => (redirectScript r.certManager r.pc.err).take r.pc.rank

/-- The effects of the runtime: at most the kill by an unregistered signal. -/
def runtimeHist {H : Type} : Option Exit → List (Event H)
  | some (.killed sig) => [.killed sig]
  | _ => []

/-- Whether the coordinator exists when the launcher of `c` is at `pc`. -/
def coordStarted {H : Type} (c : Call H) (pc : MainPc) : Bool :=
  match c with
  | .graceful _ _ => true
  | _ =>
    match pc with
    | .entry | .redirectStarted | .bannerLogged => false
    | _ => true

/-- Whether the plaintext-listener goroutine exists. -/
def redirectStarted {H : Type} (c : Call H) (pc : MainPc) : Bool :=
  match c with
  | .StartProd _ _ =>
    match pc with
    | .entry => false
    | _ => true
  | _ => false

/-- The certificate manager of call `c`. -/
def Call.manager {H : Type} : Call H → Manager
  | .StartProd _ hosts => certManager hosts
  | _ => certManager []

/-- Whether a thread performed `os.Exit`. -/
def exitedByCode {H : Type} (s : State H) : Bool :=
  (match s.main with | .exited _ => true | _ => false) ||
  (match s.redirect with | some ⟨_, .exited _⟩ => true | _ => false)

/-- The invariant of every run: the trace of each thread is the part of
its script up to its program point, and the shared state agrees with the
program points. -/
structure Inv {H : Type} (c : Call H) (s : State H) : Prop where
  main_hist : proj .main s.trace = mainHist c s.main
  coord_hist : proj .coordinator s.trace = coordHist s.coord
  redirect_hist : proj .redirect s.trace = redirectHist s.redirect
  runtime_hist : proj .runtime s.trace = runtimeHist s.exit
  coord_started : s.coord.isSome = coordStarted c s.main
  coord_args : ∀ g, s.coord = some g → g.srv = c.srv ∧ g.timeout = c.budget
  redirect_started : s.redirect.isSome = redirectStarted c s.main
  redirect_args : ∀ r, s.redirect = some r → r.certManager = c.manager
  exit_code : ∀ n, s.exit = some (.code n) → n = 1 ∧ exitedByCode s = true
  exit_none : s.exit = none → exitedByCode s = false
  stop_sig : ∀ sig, s.stop = some sig → sig ≠ .other
  recv_sig : ∀ g, s.coord = some g → g.pc.sig ≠ .other
  notified : s.notified = match s.coord with
    | some g => if 2 ≤ g.pc.rank then [.interrupt, .sigterm] else []
    | none => []

/-- Whether an effect is a call of `srv.Shutdown`. -/
def Event.isShutdown {H : Type} : Event H → Bool
  | .shutdown _ _ => true
  | _ => false

/-- Whether an effect is the receipt, from `stop`, of an interrupt or a
SIGTERM. -/
def Event.isTermRecv {H : Type} : Event H → Bool
  | .recv .interrupt | .recv .sigterm => true
  | _ => false

/-- Whether a log entry is one of the coordinator's lines. -/
def LogEntry.isShutdownLine : LogEntry → Bool
  | .shuttingDown _ | .shutdownError _ | .stopped => true
  | _ => false

/-- Whether an effect writes one of the coordinator's log lines. -/
def Event.isShutdownLog {H : Type} : Event H → Bool
  | .log e => e.isShutdownLine
  | _ => false

/-- Whether an effect writes the shutdown-begin line. -/
def Event.isBeginLog {H : Type} : Event H → Bool
  | .log (.shuttingDown _) => true
  | _ => false

/-- Whether an effect writes an outcome line of the coordinator. -/
def Event.isOutcomeLog {H : Type} : Event H → Bool
  | .log (.shutdownError _) | .log .stopped => true
  | _ => false

/-- Whether an effect starts a coordinator. -/
def Event.isGoGraceful {H : Type} : Event H → Bool
  | .goGraceful _ _ => true
  | _ => false

/-- Whether an action delivers an interrupt or a SIGTERM. -/
def Action.isTermSignal : Action → Bool
  | .signal .interrupt | .signal .sigterm => true
  | _ => false

/-- In `l`, walking from the left with `seen` telling whether a `p` has
been passed: every `q` comes after a `p`. -/
def Ordered {α : Type} (p q : α → Prop) : Prop → List α → Prop
  | _, [] => True
  | seen, x :: xs => (q x → seen) ∧ Ordered p q (seen ∨ p x) xs

/-- The effects thread `t` has performed, read off the state. -/
def histOf {H : Type} (c : Call H) (s : State H) : Thread → List (Event H)
  | .main => mainHist c s.main
  | .coordinator => coordHist s.coord
  | .redirect => redirectHist s.redirect
  | .runtime => runtimeHist s.exit

/-- Whether a call is one of the two launchers. -/
def Call.isLauncher {H : Type} : Call H → Bool
  | .graceful _ _ => false
  | _ => true

/-- A line mentions `x` when the characters of `x` occur in it, one after
the other. -/
def Mentions (line x : String) : Prop := x.data <:+: line.data

instance instDecidableMentions (line x : String) : Decidable (Mentions line x) := by
  unfold Mentions
  infer_instance

/-- Whether an effect is a call of `srv.ListenAndServeTLS`. -/
def Event.isServeCall {H : Type} : Event H → Bool
  | .listenAndServeTLS _ _ _ => true
  | _ => false

/-- The startup line of a launcher. -/
def Call.banner {H : Type} : Call H → LogEntry
  | .StartDev _ addr _ _ => .devBanner addr
  | _ => .prodBanner

/-- The production scenario: `StartProd` for `example.com`. -/
def prodScenario : Call Unit := .StartProd () ["example.com"]

/-- A schedule of the production scenario: both goroutines are started, a
SIGTERM arrives five seconds in, the coordinator calls `srv.Shutdown` with
the deadline at 65 seconds; the serve call returns the server-closed error
at once, as the library does when `Shutdown` is called, and the launcher
handles it while `srv.Shutdown` is still waiting. -/
def prodCutOff : List Action :=
  [.main, .main, .main, .main, .redirect, .coordinator, .coordinator, .signal .sigterm,
   .coordinator, .clock 5000000000, .coordinator, .coordinator,
   .serveReturns .ErrServerClosed, .main, .main]

theorem proj_emit {H : Type} (t u : Thread) (tr : List (Thread × Event H)) (e : Event H) :
    proj t (tr ++ [(u, e)]) = if u = t then proj t tr ++ [e] else proj t tr := by
  by_cases h : u = t <;> simp [proj, h, List.filter_cons]

theorem inv_init {H : Type} (c : Call H) : Inv c (init c) := by
  cases c <;> constructor <;> simp [init, proj, mainHist, coordHist, redirectHist, runtimeHist,
    coordStarted, redirectStarted, exitedByCode, MainPc.rank, GracefulPc.rank, Call.srv,
    Call.budget, mainScript, GracefulPc.sig]

theorem inv_graceful {H : Type} (c : Call H) (s : State H) (g : Coordinator H) (a : Action)
    (hs : Inv c s) (hg : s.coord = some g) (hx : s.exit = none) :
    Inv c (graceful g.srv g.timeout g.pc a s) := by
  obtain ⟨main, coord, redirect, stop, notified, exit, trace⟩ := s
  obtain ⟨srv, timeout, pc⟩ := g
  obtain ⟨h1, h2, h3, h4, h5, h6, h7, h8, h9, h10, h11, h12, h13⟩ := hs
  dsimp only at hg hx h1 h2 h3 h4 h5 h6 h7 h8 h9 h10 h11 h12 h13
  subst hg hx
  cases pc <;> cases a <;>
    first
    | exact ⟨h1, h2, h3, h4, h5, h6, h7, h8, h9, h10, h11, h12, h13⟩
    | skip
  case waiting.coordinator =>
    cases stop with
    | none => exact ⟨h1, h2, h3, h4, h5, h6, h7, h8, h9, h10, h11, h12, h13⟩
    | some sig =>
      simp only [graceful, State.emit]
      simp [coordHist, gracefulScript, GracefulPc.rank, GracefulPc.sig, GracefulPc.now,
        GracefulPc.err, exitedByCode, outcome] at h2 h5 h6 h9 h10 h11 h12 h13
      constructor <;>
        first
        | assumption
        | simp [proj_emit, coordHist, gracefulScript, GracefulPc.rank, GracefulPc.sig,
            GracefulPc.now, GracefulPc.err, exitedByCode, outcome, *]
  case stopReturned.coordinator sig now err =>
    cases err with
    | none =>
      simp only [graceful, State.emit]
      simp [coordHist, gracefulScript, GracefulPc.rank, GracefulPc.sig, GracefulPc.now,
        GracefulPc.err, exitedByCode, outcome] at h2 h5 h6 h9 h10 h11 h12 h13
      constructor <;>
        first
        | assumption
        | simp [proj_emit, coordHist, gracefulScript, GracefulPc.rank, GracefulPc.sig,
            GracefulPc.now, GracefulPc.err, exitedByCode, outcome, *]
    | some e =>
      simp only [graceful, State.emit]
      simp [coordHist, gracefulScript, GracefulPc.rank, GracefulPc.sig, GracefulPc.now,
        GracefulPc.err, exitedByCode, outcome] at h2 h5 h6 h9 h10 h11 h12 h13
      constructor <;>
        first
        | assumption
        | simp [proj_emit, coordHist, gracefulScript, GracefulPc.rank, GracefulPc.sig,
            GracefulPc.now, GracefulPc.err, exitedByCode, outcome, *]
  all_goals
    simp only [graceful, State.emit]
    simp [coordHist, gracefulScript, GracefulPc.rank, GracefulPc.sig, GracefulPc.now,
      GracefulPc.err, exitedByCode, outcome] at h2 h5 h6 h9 h10 h11 h12 h13
    constructor <;>
      first
      | assumption
      | simp [proj_emit, coordHist, gracefulScript, GracefulPc.rank, GracefulPc.sig,
          GracefulPc.now, GracefulPc.err, exitedByCode, outcome, *]

theorem inv_StartDev {H : Type} (h : H) (addr certFile keyFile : String) (s : State H)
    (a : Action) (hs : Inv (.StartDev h addr certFile keyFile) s) (hx : s.exit = none) :
    Inv (.StartDev h addr certFile keyFile) (StartDev h addr certFile keyFile a s) := by
  obtain ⟨main, coord, redirect, stop, notified, exit, trace⟩ := s
  obtain ⟨h1, h2, h3, h4, h5, h6, h7, h8, h9, h10, h11, h12, h13⟩ := hs
  dsimp only at hx h1 h2 h3 h4 h5 h6 h7 h8 h9 h10 h11 h12 h13
  subst hx
  cases main <;> cases a <;>
    first
    | exact ⟨h1, h2, h3, h4, h5, h6, h7, h8, h9, h10, h11, h12, h13⟩
    | skip
  all_goals
    simp only [StartDev, serveAndDie, State.emit]
    simp [mainHist, mainScript, MainPc.rank, MainPc.err, coordStarted, redirectStarted,
      exitedByCode, runtimeHist] at h1 h4 h5 h7 h9 h10
    constructor <;>
      first
      | assumption
      | simp [*, proj_emit, mainHist, mainScript, MainPc.rank, MainPc.err, coordStarted,
          redirectStarted, exitedByCode, runtimeHist, coordHist, GracefulPc.rank,
          GracefulPc.sig, Call.srv, Call.budget]

theorem inv_StartProd {H : Type} (h : H) (hosts : List String) (s : State H)
    (a : Action) (hs : Inv (.StartProd h hosts) s) (hx : s.exit = none) :
    Inv (.StartProd h hosts) (StartProd h hosts a s) := by
  obtain ⟨main, coord, redirect, stop, notified, exit, trace⟩ := s
  obtain ⟨h1, h2, h3, h4, h5, h6, h7, h8, h9, h10, h11, h12, h13⟩ := hs
  dsimp only at hx h1 h2 h3 h4 h5 h6 h7 h8 h9 h10 h11 h12 h13
  subst hx
  cases main <;> cases a <;>
    first
    | exact ⟨h1, h2, h3, h4, h5, h6, h7, h8, h9, h10, h11, h12, h13⟩
    | skip
  all_goals
    simp only [StartProd, serveAndDie, State.emit]
    simp [mainHist, mainScript, MainPc.rank, MainPc.err, coordStarted, redirectStarted,
      exitedByCode, runtimeHist] at h1 h4 h5 h7 h9 h10
    constructor <;>
      first
      | assumption
      | simp [*, proj_emit, mainHist, mainScript, MainPc.rank, MainPc.err, coordStarted,
          redirectStarted, exitedByCode, runtimeHist, coordHist, redirectHist, GracefulPc.rank,
          RedirectPc.rank, GracefulPc.sig, Call.srv, Call.budget, Call.manager]

theorem inv_redirectListener {H : Type} (c : Call H) (s : State H) (r : Redirect) (a : Action)
    (hs : Inv c s) (hr : s.redirect = some r) (hx : s.exit = none) :
    Inv c (redirectListener r.certManager r.pc a s) := by
  obtain ⟨main, coord, redirect, stop, notified, exit, trace⟩ := s
  obtain ⟨m, pc⟩ := r
  obtain ⟨h1, h2, h3, h4, h5, h6, h7, h8, h9, h10, h11, h12, h13⟩ := hs
  dsimp only at hr hx h1 h2 h3 h4 h5 h6 h7 h8 h9 h10 h11 h12 h13
  subst hr hx
  cases pc <;> cases a <;>
    first
    | exact ⟨h1, h2, h3, h4, h5, h6, h7, h8, h9, h10, h11, h12, h13⟩
    | skip
  all_goals
    simp only [redirectListener, State.emit]
    simp [redirectHist, redirectScript, RedirectPc.rank, RedirectPc.err, exitedByCode,
      runtimeHist] at h3 h4 h7 h8 h9 h10
    constructor <;>
      first
      | assumption
      | simp [*, proj_emit, redirectHist, redirectScript, RedirectPc.rank, RedirectPc.err,
          exitedByCode, runtimeHist]

theorem inv_deliver {H : Type} (c : Call H) (s : State H) (sig : Signal)
    (hs : Inv c s) (hx : s.exit = none) : Inv c (deliver sig s) := by
  obtain ⟨main, coord, redirect, stop, notified, exit, trace⟩ := s
  obtain ⟨h1, h2, h3, h4, h5, h6, h7, h8, h9, h10, h11, h12, h13⟩ := hs
  dsimp only at hx h1 h2 h3 h4 h5 h6 h7 h8 h9 h10 h11 h12 h13
  subst hx
  unfold deliver
  dsimp only
  split
  · rename_i hmem
    cases stop with
    | some old => exact ⟨h1, h2, h3, h4, h5, h6, h7, h8, h9, h10, h11, h12, h13⟩
    | none =>
      refine ⟨h1, h2, h3, h4, h5, h6, h7, h8, h9, h10, ?_, h12, h13⟩
      intro sig2 h2eq
      simp only [Option.some.injEq] at h2eq
      subst h2eq
      rw [h13] at hmem
      intro ho
      subst ho
      cases coord with
      | none => simp at hmem
      | some g => by_cases hr : 2 ≤ g.pc.rank <;> simp [hr] at hmem
  · cases sig with
    | other => exact ⟨h1, h2, h3, h4, h5, h6, h7, h8, h9, h10, h11, h12, h13⟩
    | interrupt =>
      simp [runtimeHist, exitedByCode] at h4 h10
      constructor <;>
        first
        | assumption
        | simp [*, State.emit, proj_emit, runtimeHist, exitedByCode]
    | sigterm =>
      simp [runtimeHist, exitedByCode] at h4 h10
      constructor <;>
        first
        | assumption
        | simp [*, State.emit, proj_emit, runtimeHist, exitedByCode]

theorem inv_step {H : Type} (c : Call H) (s : State H) (a : Action) (hs : Inv c s) :
    Inv c (step c s a) := by
  unfold step
  split
  · exact hs
  · rename_i hx
    have hx : s.exit = none := by
      cases h : s.exit with
      | none => rfl
      | some x => simp [h] at hx
    split
    · exact inv_deliver c s _ hs hx
    · cases c with
      | StartDev h addr certFile keyFile => exact inv_StartDev h addr certFile keyFile s _ hs hx
      | StartProd h hosts => exact inv_StartProd h hosts s _ hs hx
      | graceful srv timeout => exact hs
    · cases c with
      | StartDev h addr certFile keyFile => exact inv_StartDev h addr certFile keyFile s _ hs hx
      | StartProd h hosts => exact inv_StartProd h hosts s _ hs hx
      | graceful srv timeout => exact hs
    · split
      · rename_i g hg
        exact inv_graceful c s g _ hs hg hx
      · exact hs
    · split
      · rename_i g hg
        exact inv_graceful c s g _ hs hg hx
      · exact hs
    · split
      · rename_i g hg
        exact inv_graceful c s g _ hs hg hx
      · exact hs
    · split
      · rename_i r hr
        exact inv_redirectListener c s r _ hs hr hx
      · exact hs
    · split
      · rename_i r hr
        exact inv_redirectListener c s r _ hs hr hx
      · exact hs

theorem inv_run {H : Type} (c : Call H) (sched : List Action) :
    ∀ s : State H, Inv c s → Inv c (run c s sched) := by
  induction sched with
  | nil => intro s hs; exact hs
  | cons a rest ih => intro s hs; exact ih _ (inv_step c s a hs)

theorem inv_exec {H : Type} (c : Call H) (sched : List Action) : Inv c (exec c sched) :=
  inv_run c sched _ (inv_init c)

theorem Ordered.spec {α : Type} (p q : α → Prop) :
    ∀ (l : List α) (seen : Prop), Ordered p q seen l →
      ∀ pre x post, l = pre ++ x :: post → q x → seen ∨ ∃ y ∈ pre, p y := by
  intro l
  induction l with
  | nil =>
    intro seen _ pre x post h
    simp at h
  | cons a rest ih =>
    intro seen h pre x post heq hq
    cases pre with
    | nil =>
      simp only [List.nil_append, List.cons.injEq] at heq
      obtain ⟨h1, _⟩ := heq
      subst h1
      exact Or.inl (h.1 hq)
    | cons b pre2 =>
      simp only [List.cons_append, List.cons.injEq] at heq
      obtain ⟨h1, h2⟩ := heq
      subst h1
      rcases ih (seen ∨ p a) h.2 pre2 x post h2 hq with h3 | ⟨y, hy, hp⟩
      · rcases h3 with h4 | h4
        · exact Or.inl h4
        · exact Or.inr ⟨a, by simp, h4⟩
      · exact Or.inr ⟨y, by simp [hy], hp⟩

theorem proj_split {H : Type} (t : Thread) (pre post : List (Thread × Event H)) (e : Event H) :
    proj t (pre ++ (t, e) :: post) = proj t pre ++ e :: proj t post := by
  simp [proj, List.filter_cons]

theorem mem_of_mem_proj {H : Type} {t : Thread} {tr : List (Thread × Event H)} {e : Event H}
    (h : e ∈ proj t tr) : (t, e) ∈ tr := by
  simp only [proj, List.mem_map, List.mem_filter, decide_eq_true_eq] at h
  obtain ⟨⟨u, e2⟩, ⟨hm, hu⟩, he⟩ := h
  simp only at hu he
  subst hu he
  exact hm

theorem mem_proj_of_mem {H : Type} {t : Thread} {tr : List (Thread × Event H)} {e : Event H}
    (h : (t, e) ∈ tr) : e ∈ proj t tr := by
  simp only [proj, List.mem_map, List.mem_filter, decide_eq_true_eq]
  exact ⟨(t, e), ⟨h, rfl⟩, rfl⟩

theorem proj_eq_hist {H : Type} {c : Call H} {s : State H} (hs : Inv c s) (t : Thread) :
    proj t s.trace = histOf c s t := by
  cases t
  · exact hs.main_hist
  · exact hs.coord_hist
  · exact hs.redirect_hist
  · exact hs.runtime_hist

/-- Order inside one thread carries over to the whole trace. -/
theorem ordered_trace {H : Type} (t : Thread) (p q : Event H → Prop)
    (tr : List (Thread × Event H)) (h : Ordered p q False (proj t tr)) :
    ∀ pre e post, tr = pre ++ (t, e) :: post → q e → ∃ y, (t, y) ∈ pre ∧ p y := by
  intro pre e post heq hq
  have h2 := Ordered.spec p q _ False h (proj t pre) e (proj t post)
    (by rw [heq, proj_split]) hq
  rcases h2 with h3 | ⟨y, hy, hp⟩
  · exact h3.elim
  · exact ⟨y, mem_of_mem_proj hy, hp⟩

theorem countP_trace {H : Type} (p : Event H → Bool) (tr : List (Thread × Event H)) :
    tr.countP (fun x => p x.2) =
      (proj .main tr).countP p + (proj .coordinator tr).countP p +
      (proj .redirect tr).countP p + (proj .runtime tr).countP p := by
  induction tr with
  | nil => simp [proj]
  | cons x rest ih =>
    obtain ⟨t, e⟩ := x
    have hc : ∀ u : Thread, proj u ((t, e) :: rest) =
        if t = u then e :: proj u rest else proj u rest := by
      intro u
      by_cases h : t = u <;> simp [proj, List.filter_cons, h]
    rw [List.countP_cons, ih, hc, hc, hc, hc]
    cases t <;> cases hp : p e <;> simp [List.countP_cons, hp] <;> omega

theorem mainHist_mem {H : Type} {c : Call H} {pc : MainPc} {e : Event H}
    (h : e ∈ mainHist c pc) : e ∈ mainScript c pc.err :=
  List.mem_of_mem_take h

theorem redirectHist_mem {H : Type} {r : Option Redirect} {e : Event H}
    (h : e ∈ redirectHist r) : ∃ m err, e ∈ redirectScript m err := by
  cases r with
  | none => simp [redirectHist] at h
  | some r => exact ⟨_, _, List.mem_of_mem_take h⟩

theorem runtimeHist_mem {H : Type} {x : Option Exit} {e : Event H}
    (h : e ∈ runtimeHist x) : ∃ sig, e = .killed sig := by
  cases x with
  | none => simp [runtimeHist] at h
  | some x =>
    cases x with
    | code n => simp [runtimeHist] at h
    | killed sig => exact ⟨sig, by simpa [runtimeHist] using h⟩

/-- The effects only the coordinator performs: whatever satisfies `p`,
when no effect of the other threads does. -/
theorem coordinator_only {H : Type} {c : Call H} {s : State H} (hs : Inv c s)
    (p : Event H → Bool)
    (hmain : ∀ err, (mainScript c err).all (fun e => !p e) = true)
    (hred : ∀ m err, (redirectScript m err : List (Event H)).all (fun e => !p e) = true)
    (hrun : ∀ sig, p (.killed sig) = false)
    {t : Thread} {e : Event H} (hm : (t, e) ∈ s.trace) (hp : p e = true) :
    t = .coordinator := by
  have he : e ∈ histOf c s t := by
    rw [← proj_eq_hist hs]
    exact mem_proj_of_mem hm
  cases t with
  | coordinator => rfl
  | main =>
    have := List.all_eq_true.mp (hmain _) e (mainHist_mem he)
    simp [hp] at this
  | redirect =>
    obtain ⟨m, err, h2⟩ := redirectHist_mem he
    have := List.all_eq_true.mp (hred m err) e h2
    simp [hp] at this
  | runtime =>
    obtain ⟨sig, h2⟩ := runtimeHist_mem he
    subst h2
    simp [hrun sig] at hp

theorem coordHist_ordered_recv_shutdown {H : Type} {c : Call H} {s : State H} (hs : Inv c s) :
    Ordered (fun e : Event H => e.isTermRecv = true) (fun e => e.isShutdown = true) False
      (coordHist s.coord) := by
  have h12 := hs.recv_sig
  cases hc : s.coord with
  | none => simp [coordHist, Ordered]
  | some g =>
    obtain ⟨srv, timeout, pc⟩ := g
    have h := h12 _ hc
    simp only [coordHist, gracefulScript]
    simp only at h
    generalize pc.sig = sig at h ⊢
    cases sig
    · cases pc <;> simp [GracefulPc.rank, Ordered, Event.isShutdown, Event.isTermRecv]
    · cases pc <;> simp [GracefulPc.rank, Ordered, Event.isShutdown, Event.isTermRecv]
    · exact (h rfl).elim

/-- Without an interrupt or SIGTERM, `stop` stays empty and the coordinator
stays at or before `<-stop`. -/
theorem quiet_step {H : Type} (c : Call H) (s : State H) (a : Action) (hs : Inv c s)
    (ha : a.isTermSignal = false) (h1 : s.stop = none)
    (h2 : ∀ g, s.coord = some g → g.pc.rank ≤ 2) :
    (step c s a).stop = none ∧ ∀ g, (step c s a).coord = some g → g.pc.rank ≤ 2 := by
  have h13 := hs.notified
  obtain ⟨main, coord, redirect, stop, notified, exit, trace⟩ := s
  dsimp only at h1 h2 h13
  subst h1
  unfold step
  dsimp only
  split
  · exact ⟨rfl, h2⟩
  · cases a with
    | signal sig =>
      cases sig with
      | interrupt => simp [Action.isTermSignal] at ha
      | sigterm => simp [Action.isTermSignal] at ha
      | other =>
        have hn : Signal.other ∉ notified := by
          rw [h13]
          cases coord with
          | none => simp
          | some g => by_cases hr : 2 ≤ g.pc.rank <;> simp [hr]
        simp only [deliver, hn, if_false]
        exact ⟨trivial, h2⟩
    | main =>
      cases c <;> cases main <;>
        simp [StartDev, StartProd, serveAndDie, State.emit, GracefulPc.rank] <;> exact h2
    | serveReturns e =>
      cases c <;> cases main <;>
        simp [StartDev, StartProd, serveAndDie, State.emit, GracefulPc.rank] <;> exact h2
    | coordinator =>
      cases coord with
      | none => exact ⟨rfl, h2⟩
      | some g =>
        obtain ⟨srv, timeout, pc⟩ := g
        have h := h2 _ rfl
        cases pc <;> simp [GracefulPc.rank] at h <;>
          simp [graceful, State.emit, GracefulPc.rank]
    | clock t =>
      cases coord with
      | none => exact ⟨rfl, h2⟩
      | some g =>
        obtain ⟨srv, timeout, pc⟩ := g
        have h := h2 _ rfl
        cases pc <;> simp [GracefulPc.rank] at h <;>
          simp [graceful, State.emit, GracefulPc.rank]
    | shutdownReturns r =>
      cases coord with
      | none => exact ⟨rfl, h2⟩
      | some g =>
        obtain ⟨srv, timeout, pc⟩ := g
        have h := h2 _ rfl
        cases pc <;> simp [GracefulPc.rank] at h <;>
          simp [graceful, State.emit, GracefulPc.rank]
    | redirect =>
      cases redirect with
      | none => exact ⟨rfl, h2⟩
      | some r =>
        obtain ⟨m, pc⟩ := r
        cases pc <;> simp [redirectListener, State.emit] <;> exact h2
    | redirectReturns e =>
      cases redirect with
      | none => exact ⟨rfl, h2⟩
      | some r =>
        obtain ⟨m, pc⟩ := r
        cases pc <;> simp [redirectListener, State.emit] <;> exact h2

theorem quiet_run {H : Type} (c : Call H) (sched : List Action) :
    ∀ s : State H, Inv c s → s.stop = none → (∀ g, s.coord = some g → g.pc.rank ≤ 2) →
      (∀ a ∈ sched, a.isTermSignal = false) →
      ∀ g, (run c s sched).coord = some g → g.pc.rank ≤ 2 := by
  induction sched with
  | nil => intro s _ _ h2 _; exact h2
  | cons a rest ih =>
    intro s hs h1 h2 hq
    have hstep := quiet_step c s a hs (hq a (by simp)) h1 h2
    exact ih (step c s a) (inv_step c s a hs) hstep.1 hstep.2
      (fun b hb => hq b (by simp [hb]))

theorem init_quiet {H : Type} (c : Call H) :
    (init c).stop = none ∧ ∀ g, (init c).coord = some g → g.pc.rank ≤ 2 := by
  cases c <;> simp [init, GracefulPc.rank]

/-- C1: in every run (of `graceful` called directly, for every server and
every drain duration, and of either launcher), every call of `srv.Shutdown`
in the trace comes after the coordinator has received an interrupt or a
SIGTERM from `stop`; a run whose schedule delivers neither contains no call
of `srv.Shutdown` and none of the coordinator's log lines; and once a signal
is delivered the call does happen. -/
theorem C1_stop_only_after_signal {H : Type} (c : Call H) (sched : List Action) :
    (∀ pre x post, (exec c sched).trace = pre ++ x :: post → x.2.isShutdown = true →
        ∃ y ∈ pre, y.1 = Thread.coordinator ∧ y.2.isTermRecv = true) ∧
    ((∀ a ∈ sched, a.isTermSignal = false) →
        ∀ x ∈ (exec c sched).trace, x.2.isShutdown = false ∧ x.2.isShutdownLog = false) ∧
    (∀ (srv : HttpServer H) (timeout : Duration) (now : Time),
        (Thread.coordinator, Event.shutdown srv (now + timeout)) ∈
          (exec (.graceful srv timeout) [.coordinator, .coordinator, .signal .interrupt,
            .coordinator, .clock now, .coordinator, .coordinator]).trace) := by
  have hs := inv_exec c sched
  refine ⟨?_, ?_, ?_⟩
  · intro pre x post heq hq
    obtain ⟨t, e⟩ := x
    have hm : (t, e) ∈ (exec c sched).trace := by rw [heq]; simp
    have ht : t = .coordinator :=
      coordinator_only hs Event.isShutdown
        (by intro err; cases c <;> rfl)
        (by intro m err; rfl)
        (by intro sig; rfl) hm hq
    subst ht
    have hord := coordHist_ordered_recv_shutdown hs
    rw [← hs.coord_hist] at hord
    obtain ⟨y, hy, hp⟩ := ordered_trace _ _ _ _ hord pre e post heq hq
    exact ⟨(.coordinator, y), hy, rfl, hp⟩
  · intro hq x hx
    obtain ⟨t, e⟩ := x
    have hrank := quiet_run c sched (init c) (inv_init c) (init_quiet c).1 (init_quiet c).2 hq
    by_contra hne
    have hp : (e.isShutdown || e.isShutdownLog) = true := by
      cases h1 : e.isShutdown <;> cases h2 : e.isShutdownLog <;> simp_all
    have ht : t = .coordinator :=
      coordinator_only hs (fun e => e.isShutdown || e.isShutdownLog)
        (by intro err; cases c <;> rfl)
        (by intro m err; rfl)
        (by intro sig; rfl) hx hp
    subst ht
    have he : e ∈ coordHist (exec c sched).coord := by
      rw [← hs.coord_hist]; exact mem_proj_of_mem hx
    cases hc : (exec c sched).coord with
    | none => simp [hc, coordHist] at he
    | some g =>
      have hr := hrank g hc
      rw [hc] at he
      obtain ⟨srv, timeout, pc⟩ := g
      cases pc <;> simp [GracefulPc.rank] at hr <;>
        simp [coordHist, gracefulScript, GracefulPc.rank] at he
      · subst he; simp [Event.isShutdown, Event.isShutdownLog] at hp
      · rcases he with h | h <;> subst h <;> simp [Event.isShutdown, Event.isShutdownLog] at hp
  · intro srv timeout now
    simp [exec, run, init, step, graceful, deliver, State.emit]

theorem countP_hist {H : Type} {c : Call H} {s : State H} (hs : Inv c s) (p : Event H → Bool) :
    s.trace.countP (fun x => p x.2) =
      (mainHist c s.main).countP p + (coordHist s.coord).countP p +
      (redirectHist s.redirect).countP p + (runtimeHist s.exit).countP p := by
  rw [countP_trace, hs.main_hist, hs.coord_hist, hs.redirect_hist, hs.runtime_hist]

theorem countP_coordHist_le {H : Type} (g : Option (Coordinator H)) :
    (coordHist g).countP Event.isShutdown ≤ 1 ∧ (coordHist g).countP Event.isBeginLog ≤ 1 ∧
    (coordHist g).countP Event.isOutcomeLog ≤ 1 ∧ (coordHist g).countP Event.isGoGraceful = 0 := by
  cases g with
  | none => simp [coordHist]
  | some g =>
    obtain ⟨srv, timeout, pc⟩ := g
    cases pc <;>
      simp [coordHist, gracefulScript, GracefulPc.rank, List.countP_cons, Event.isShutdown,
        Event.isBeginLog, Event.isOutcomeLog, Event.isGoGraceful, GracefulPc.err]
    all_goals
      rename_i err
      cases err <;> simp [outcome]

theorem countP_mainHist {H : Type} (c : Call H) (pc : MainPc) :
    (mainHist c pc).countP Event.isShutdown = 0 ∧ (mainHist c pc).countP Event.isBeginLog = 0 ∧
    (mainHist c pc).countP Event.isOutcomeLog = 0 ∧
    (mainHist c pc).countP Event.isGoGraceful = if coordStarted c pc && c.isLauncher then 1 else 0 := by
  cases c <;> cases pc <;>
    simp [mainHist, mainScript, MainPc.rank, List.countP_cons, Event.isShutdown,
      Event.isBeginLog, Event.isOutcomeLog, Event.isGoGraceful, coordStarted, Call.isLauncher]

theorem countP_redirectHist {H : Type} (r : Option Redirect) :
    (redirectHist r : List (Event H)).countP Event.isShutdown = 0 ∧
    (redirectHist r : List (Event H)).countP Event.isBeginLog = 0 ∧
    (redirectHist r : List (Event H)).countP Event.isOutcomeLog = 0 ∧
    (redirectHist r : List (Event H)).countP Event.isGoGraceful = 0 := by
  cases r with
  | none => simp [redirectHist]
  | some r =>
    obtain ⟨m, pc⟩ := r
    cases pc <;>
      simp [redirectHist, redirectScript, RedirectPc.rank, List.countP_cons, Event.isShutdown,
        Event.isBeginLog, Event.isOutcomeLog, Event.isGoGraceful]

theorem countP_runtimeHist {H : Type} (x : Option Exit) :
    (runtimeHist x : List (Event H)).countP Event.isShutdown = 0 ∧
    (runtimeHist x : List (Event H)).countP Event.isBeginLog = 0 ∧
    (runtimeHist x : List (Event H)).countP Event.isOutcomeLog = 0 ∧
    (runtimeHist x : List (Event H)).countP Event.isGoGraceful = 0 := by
  cases x with
  | none => simp [runtimeHist]
  | some x =>
    cases x <;>
      simp [runtimeHist, List.countP_cons, Event.isShutdown,
        Event.isBeginLog, Event.isOutcomeLog, Event.isGoGraceful]

/-- C4: in every run, whatever signals the schedule delivers and whenever,
`srv.Shutdown` is called at most once and the shutdown-begin line is
written at most once; the number of `go graceful(...)` statements executed
is one when the call is a launcher and a coordinator exists, and zero
otherwise; a coordinator that exists runs on the server and with the budget
of the call; `StartDev` after two steps and `StartProd` after three have
started the coordinator for the server they built. -/
theorem C4_at_most_one_drain {H : Type} (c : Call H) (sched : List Action) :
    (exec c sched).trace.countP (fun x => x.2.isShutdown) ≤ 1 ∧
    (exec c sched).trace.countP (fun x => x.2.isBeginLog) ≤ 1 ∧
    (exec c sched).trace.countP (fun x => x.2.isGoGraceful) =
      (if (exec c sched).coord.isSome && c.isLauncher then 1 else 0) ∧
    (∀ g, (exec c sched).coord = some g → g.srv = c.srv ∧ g.timeout = c.budget) ∧
    (∀ (h : H) (addr certFile keyFile : String),
      (exec (.StartDev h addr certFile keyFile) [.main, .main]).coord =
        some { srv := devServer h addr, timeout := 30 * Second, pc := .entry }) ∧
    (∀ (h : H) (hosts : List String),
      (exec (.StartProd h hosts) [.main, .main, .main]).coord =
        some { srv := prodServer h hosts, timeout := 60 * Second, pc := .entry }) := by
  have hs := inv_exec c sched
  have hm := countP_mainHist c (exec c sched).main
  have hg := countP_coordHist_le (exec c sched).coord
  have hr := countP_redirectHist (H := H) (exec c sched).redirect
  have hx := countP_runtimeHist (H := H) (exec c sched).exit
  refine ⟨?_, ?_, ?_, hs.coord_args, ?_, ?_⟩
  · rw [countP_hist hs, hm.1, hr.1, hx.1]
    have := hg.1
    omega
  · rw [countP_hist hs, hm.2.1, hr.2.1, hx.2.1]
    have := hg.2.1
    omega
  · rw [countP_hist hs, hm.2.2.2, hr.2.2.2, hx.2.2.2, hg.2.2.2, hs.coord_started]
    simp
  · intro h addr certFile keyFile
    rfl
  · intro h hosts
    rfl

theorem error_line_ne_stopped (x : String) : "Error: " ++ x ≠ "Server stopped" := by
  intro h
  have h2 := congrArg String.data h
  rw [String.data_append] at h2
  have h3 := congrArg List.head? h2
  simp at h3

theorem Ordered.take {α : Type} (p q : α → Prop) :
    ∀ (l : List α) (seen : Prop) (k : Nat), Ordered p q seen l → Ordered p q seen (l.take k) := by
  intro l
  induction l with
  | nil => intro seen k h; simpa using h
  | cons a rest ih =>
    intro seen k h
    cases k with
    | zero => simp [Ordered]
    | succ k => exact ⟨h.1, ih _ k h.2⟩

/-- Order proved on the script of `graceful` holds in every trace. -/
theorem ordered_coord {H : Type} {c : Call H} {s : State H} (hs : Inv c s)
    (p q : Event H → Prop)
    (h : ∀ g, s.coord = some g →
      Ordered p q False (gracefulScript g.srv g.timeout g.pc.sig g.pc.now g.pc.err)) :
    ∀ pre e post, s.trace = pre ++ (.coordinator, e) :: post → q e →
      ∃ y, (Thread.coordinator, y) ∈ pre ∧ p y := by
  apply ordered_trace
  rw [hs.coord_hist]
  cases hc : s.coord with
  | none => simp [coordHist, Ordered]
  | some g => exact Ordered.take p q _ _ _ (h g hc)

/-- Order proved on the script of a launcher holds in every trace. -/
theorem ordered_main {H : Type} {c : Call H} {s : State H} (hs : Inv c s)
    (p q : Event H → Prop)
    (h : Ordered p q False (mainScript c s.main.err)) :
    ∀ pre e post, s.trace = pre ++ (.main, e) :: post → q e →
      ∃ y, (Thread.main, y) ∈ pre ∧ p y := by
  apply ordered_trace
  rw [hs.main_hist]
  exact Ordered.take p q _ _ _ h

theorem graceful_exit {H : Type} (srv : HttpServer H) (timeout : Duration) (pc : GracefulPc)
    (a : Action) (s : State H) : (graceful srv timeout pc a s).exit = s.exit := by
  cases pc <;> cases a <;> try rfl
  · simp only [graceful]
    cases s.stop <;> rfl
  · rename_i sig now err
    cases err <;> rfl

/-- C5: whatever `srv.Shutdown` returns, a live coordinator holding the
result writes one outcome line and returns after its deferred `cancel`:
the line is `Server stopped` exactly when the result is nil and is
`Error: ` followed by the text of the error otherwise.  In every run the
trace holds at most one outcome line and at most one call of
`srv.Shutdown`, each outcome line is the one for the result returned
before it, a returned coordinator does nothing more, and no step of
`graceful` changes whether the process has exited. -/
theorem C5_outcome_logged_once {H : Type} :
    (∀ (c : Call H) (main : MainPc) (redirect : Option Redirect) (stop : Option Signal)
        (notified : List Signal) (trace : List (Thread × Event H)) (srv : HttpServer H)
        (timeout : Duration) (sig : Signal) (now : Time) (err : Option Error),
      run c { main := main, coord := some ⟨srv, timeout, .stopReturned sig now err⟩,
              redirect := redirect, stop := stop, notified := notified, exit := none,
              trace := trace } [.coordinator, .coordinator] =
        { main := main, coord := some ⟨srv, timeout, .returned sig now err⟩,
          redirect := redirect, stop := stop, notified := notified, exit := none,
          trace := trace ++ [(.coordinator, .log (outcome err)), (.coordinator, .cancel)] }) ∧
    (∀ err : Option Error, ((outcome err).text = "Server stopped" ↔ err = none) ∧
      (outcome err = .stopped ↔ err = none)) ∧
    (∀ e : Error, outcome (some e) = .shutdownError e ∧
      (outcome (some e)).text = "Error: " ++ e.text) ∧
    (∀ (c : Call H) (sched : List Action),
      (exec c sched).trace.countP (fun x => x.2.isOutcomeLog) ≤ 1 ∧
      (exec c sched).trace.countP (fun x => x.2.isShutdown) ≤ 1 ∧
      (∀ pre x post, (exec c sched).trace = pre ++ x :: post → x.2.isOutcomeLog = true →
        ∃ err, x = (.coordinator, .log (outcome err)) ∧
          (Thread.coordinator, Event.shutdownRet err) ∈ pre)) ∧
    (∀ (srv : HttpServer H) (timeout : Duration) (sig : Signal) (now : Time)
        (err : Option Error) (a : Action) (s : State H),
      graceful srv timeout (.returned sig now err) a s = s) ∧
    (∀ (srv : HttpServer H) (timeout : Duration) (pc : GracefulPc) (a : Action) (s : State H),
      (graceful srv timeout pc a s).exit = s.exit) := by
  refine ⟨?_, ?_, ?_, ?_, ?_, graceful_exit⟩
  · intro c main redirect stop notified trace srv timeout sig now err
    cases err <;> simp [run, step, graceful, State.emit, outcome]
  · intro err
    cases err with
    | none => simp [outcome, LogEntry.text]
    | some e => simp [outcome, LogEntry.text, error_line_ne_stopped]
  · intro e
    simp [outcome, LogEntry.text]
  · intro c sched
    have hs := inv_exec c sched
    have hm := countP_mainHist c (exec c sched).main
    have hg := countP_coordHist_le (exec c sched).coord
    have hr := countP_redirectHist (H := H) (exec c sched).redirect
    have hx := countP_runtimeHist (H := H) (exec c sched).exit
    refine ⟨?_, ?_, ?_⟩
    · rw [countP_hist hs, hm.2.2.1, hr.2.2.1, hx.2.2.1]
      have := hg.2.2.1
      omega
    · rw [countP_hist hs, hm.1, hr.1, hx.1]
      have := hg.1
      omega
    · intro pre x post heq hq
      obtain ⟨t, e⟩ := x
      have hm : (t, e) ∈ (exec c sched).trace := by rw [heq]; simp
      have ht : t = .coordinator :=
        coordinator_only hs Event.isOutcomeLog
          (by intro err; cases c <;> rfl) (by intro m err; rfl) (by intro sig; rfl) hm hq
      subst ht
      have he : e ∈ coordHist (exec c sched).coord := by
        rw [← hs.coord_hist]; exact mem_proj_of_mem hm
      cases hc : (exec c sched).coord with
      | none => simp [hc, coordHist] at he
      | some g =>
        rw [hc] at he
        have he2 : e ∈ gracefulScript g.srv g.timeout g.pc.sig g.pc.now g.pc.err :=
          List.mem_of_mem_take he
        have he3 : e = .log (outcome g.pc.err) := by
          simp only [gracefulScript, List.mem_cons, List.mem_singleton, List.not_mem_nil,
            or_false] at he2
          rcases he2 with h | h | h | h | h | h | h | h | h <;> subst h <;>
            first
            | rfl
            | simp [Event.isOutcomeLog] at hq
        refine ⟨g.pc.err, by rw [he3], ?_⟩
        obtain ⟨y, hy, hp⟩ := ordered_coord hs (fun y => y = .shutdownRet g.pc.err)
          (fun y => y = .log (outcome g.pc.err))
          (by
            intro g2 hg2
            rw [hc] at hg2
            cases hg2
            cases herr : g.pc.err <;> simp [gracefulScript, Ordered, outcome])
          pre e post heq he3
        subst hp
        exact hy
  · intro srv timeout sig now err a s
    rfl

/-- C6: whatever error `srv.ListenAndServeTLS` returns to `StartDev` or
`StartProd` (the server-closed error included), a live launcher prints it
with `log.Fatal` and ends the process with status 1, the same way for every
error; so does the plaintext-listener goroutine of `StartProd` for whatever
`http.ListenAndServe` returns, wherever the launcher and the coordinator
are.  An error returned by `srv.Shutdown` is printed by the coordinator and
the process stays alive.  In every run an exit status set by the program is
1. -/
theorem C6_error_propagation {H : Type} :
    (∀ (h : H) (addr certFile keyFile : String) (e : Error) (coord : Option (Coordinator H))
        (redirect : Option Redirect) (stop : Option Signal) (notified : List Signal)
        (trace : List (Thread × Event H)),
      step (.StartDev h addr certFile keyFile)
          { main := .serving, coord := coord, redirect := redirect, stop := stop,
            notified := notified, exit := none, trace := trace } (.serveReturns e) =
        { main := .serveReturned e, coord := coord, redirect := redirect, stop := stop,
          notified := notified, exit := none,
          trace := trace ++ [(.main, .listenAndServeTLSRet e)] } ∧
      run (.StartDev h addr certFile keyFile)
          { main := .serveReturned e, coord := coord, redirect := redirect, stop := stop,
            notified := notified, exit := none, trace := trace } [.main, .main] =
        { main := .exited e, coord := coord, redirect := redirect, stop := stop,
          notified := notified, exit := some (.code 1),
          trace := trace ++ [(.main, .log (.fatal e)), (.main, .exit 1)] }) ∧
    (∀ (h : H) (hosts : List String) (e : Error) (coord : Option (Coordinator H))
        (redirect : Option Redirect) (stop : Option Signal) (notified : List Signal)
        (trace : List (Thread × Event H)),
      step (.StartProd h hosts)
          { main := .serving, coord := coord, redirect := redirect, stop := stop,
            notified := notified, exit := none, trace := trace } (.serveReturns e) =
        { main := .serveReturned e, coord := coord, redirect := redirect, stop := stop,
          notified := notified, exit := none,
          trace := trace ++ [(.main, .listenAndServeTLSRet e)] } ∧
      run (.StartProd h hosts)
          { main := .serveReturned e, coord := coord, redirect := redirect, stop := stop,
            notified := notified, exit := none, trace := trace } [.main, .main] =
        { main := .exited e, coord := coord, redirect := redirect, stop := stop,
          notified := notified, exit := some (.code 1),
          trace := trace ++ [(.main, .log (.fatal e)), (.main, .exit 1)] }) ∧
    (∀ (c : Call H) (m : Manager) (e : Error) (main : MainPc) (coord : Option (Coordinator H))
        (stop : Option Signal) (notified : List Signal) (trace : List (Thread × Event H)),
      run c { main := main, coord := coord, redirect := some ⟨m, .listening⟩, stop := stop,
              notified := notified, exit := none, trace := trace }
          [.redirectReturns e, .redirect, .redirect] =
        { main := main, coord := coord, redirect := some ⟨m, .exited e⟩, stop := stop,
          notified := notified, exit := some (.code 1),
          trace := trace ++ [(.redirect, .listenAndServeRet e), (.redirect, .log (.fatal e)),
            (.redirect, .exit 1)] }) ∧
    (∀ e : Error, (LogEntry.fatal e).text = e.text) ∧
    (∀ (c : Call H) (e : Error) (main : MainPc) (redirect : Option Redirect)
        (stop : Option Signal) (notified : List Signal) (trace : List (Thread × Event H))
        (srv : HttpServer H) (timeout : Duration) (sig : Signal) (now : Time),
      run c { main := main, coord := some ⟨srv, timeout, .stopping sig now⟩,
              redirect := redirect, stop := stop, notified := notified, exit := none,
              trace := trace } [.shutdownReturns (some e), .coordinator, .coordinator] =
        { main := main, coord := some ⟨srv, timeout, .returned sig now (some e)⟩,
          redirect := redirect, stop := stop, notified := notified, exit := none,
          trace := trace ++ [(.coordinator, .shutdownRet (some e)),
            (.coordinator, .log (.shutdownError e)), (.coordinator, .cancel)] }) ∧
    (∀ (c : Call H) (sched : List Action) (n : Nat),
      (exec c sched).exit = some (.code n) → n = 1) := by
  refine ⟨?_, ?_, ?_, ?_, ?_, ?_⟩
  · intro h addr certFile keyFile e coord redirect stop notified trace
    simp [run, step, StartDev, serveAndDie, State.emit]
  · intro h hosts e coord redirect stop notified trace
    simp [run, step, StartProd, serveAndDie, State.emit]
  · intro c m e main coord stop notified trace
    simp [run, step, redirectListener, State.emit]
  · intro e
    rfl
  · intro c e main redirect stop notified trace srv timeout sig now
    simp [run, step, graceful, State.emit]
  · intro c sched n hn
    exact ((inv_exec c sched).exit_code n hn).1

theorem main_goGraceful_args {H : Type} (c : Call H) (sched : List Action) (t : Thread)
    (srv : HttpServer H) (d : Duration)
    (hm : (t, Event.goGraceful srv d) ∈ (exec c sched).trace) :
    t = .main ∧ srv = c.srv ∧ d = c.budget := by
  have hs := inv_exec c sched
  have he : Event.goGraceful srv d ∈ histOf c (exec c sched) t := by
    rw [← proj_eq_hist hs]
    exact mem_proj_of_mem hm
  cases t with
  | main =>
    have h2 := mainHist_mem he
    cases c <;> simp [mainScript, Call.srv, Call.budget] at h2 ⊢ <;> simp [h2]
  | coordinator =>
    cases hc : (exec c sched).coord with
    | none => simp [histOf, hc, coordHist] at he
    | some g =>
      have h2 : Event.goGraceful srv d ∈ _ := List.mem_of_mem_take (by simpa [histOf, hc, coordHist] using he)
      cases herr : g.pc.err <;> simp [gracefulScript] at h2
  | redirect =>
    obtain ⟨m, err, h2⟩ := redirectHist_mem he
    simp [redirectScript] at h2
  | runtime =>
    obtain ⟨sig, h2⟩ := runtimeHist_mem he
    simp at h2

/-- C7: for every handler, address, certificate path and key path, the
server `StartDev` builds has that address and handler, read and write
timeouts of 5 seconds, and idle timeout and TLS configuration at their zero
values; the launcher, run alone for three steps, writes the banner, starts
`graceful` on that server with a budget of 30 seconds and calls
`ListenAndServeTLS` on that server with the given paths; and in every run
its effects are a prefix of that script followed by the return of the serve
call, the fatal print and the exit, and any coordinator it started got that
server and 30 seconds. -/
theorem C7_StartDev_wiring {H : Type} (h : H) (addr certFile keyFile : String) :
    (devServer h addr).Addr = addr ∧ (devServer h addr).Handler = h ∧
    (devServer h addr).ReadTimeout = 5000000000 ∧
    (devServer h addr).WriteTimeout = 5000000000 ∧
    (devServer h addr).IdleTimeout = 0 ∧ (devServer h addr).TLSConfig = none ∧
    (exec (.StartDev h addr certFile keyFile) [.main, .main, .main]).trace =
      [(.main, .log (.devBanner addr)),
       (.main, .goGraceful (devServer h addr) 30000000000),
       (.main, .listenAndServeTLS (devServer h addr) certFile keyFile)] ∧
    (exec (.StartDev h addr certFile keyFile) [.main, .main, .main]).coord =
      some { srv := devServer h addr, timeout := 30000000000, pc := .entry } ∧
    (∀ sched : List Action, ∃ e : Error,
      proj .main (exec (.StartDev h addr certFile keyFile) sched).trace <+:
        [.log (.devBanner addr), .goGraceful (devServer h addr) 30000000000,
         .listenAndServeTLS (devServer h addr) certFile keyFile,
         .listenAndServeTLSRet e, .log (.fatal e), .exit 1]) ∧
    (∀ (sched : List Action) (t : Thread) (srv : HttpServer H) (d : Duration),
      (t, Event.goGraceful srv d) ∈ (exec (.StartDev h addr certFile keyFile) sched).trace →
        t = .main ∧ srv = devServer h addr ∧ d = 30000000000) := by
  refine ⟨rfl, rfl, by simp [devServer, Second], by simp [devServer, Second], rfl, rfl, ?_, ?_,
    ?_, ?_⟩
  · simp [exec, run, init, step, StartDev, serveAndDie, State.emit, Second]
  · simp [exec, run, init, step, StartDev, serveAndDie, State.emit, Second]
  · intro sched
    refine ⟨(exec (.StartDev h addr certFile keyFile) sched).main.err, ?_⟩
    rw [(inv_exec _ sched).main_hist]
    have : (30 : Duration) * Second = 30000000000 := by simp [Second]
    rw [← this]
    exact List.take_prefix _ _
  · intro sched t srv d hm
    have := main_goGraceful_args _ sched t srv d hm
    simpa [Call.srv, Call.budget, Second] using this

/-- C8: for every handler and host list, the server `StartProd` builds
listens on `:https` with that handler, read timeout 5s, write timeout 10s,
idle timeout 120s and the certificate callback of a manager that accepts
the terms of service, whitelists exactly the given hosts and caches in
`certs`; the launcher, run alone for four steps, starts the plaintext
listener goroutine, writes the banner, starts `graceful` on that server
with a budget of 60 seconds, twice the budget `StartDev` gives, and calls
`ListenAndServeTLS` on that server with empty paths; in every run its
effects are a prefix of that script followed by the return of the serve
call, the fatal print and the exit. -/
theorem C8_StartProd_wiring {H : Type} (h : H) (hosts : List String) :
    (prodServer h hosts).Addr = ":https" ∧ (prodServer h hosts).Handler = h ∧
    (prodServer h hosts).ReadTimeout = 5000000000 ∧
    (prodServer h hosts).WriteTimeout = 10000000000 ∧
    (prodServer h hosts).IdleTimeout = 120000000000 ∧
    (prodServer h hosts).TLSConfig = some ⟨.GetCertificate (certManager hosts)⟩ ∧
    (certManager hosts).Prompt = .AcceptTOS ∧
    (certManager hosts).HostPolicy = .HostWhitelist hosts ∧
    (certManager hosts).Cache = .DirCache "certs" ∧
    (exec (.StartProd h hosts) [.main, .main, .main, .main]).trace =
      [(.main, .goRedirect (certManager hosts)),
       (.main, .log .prodBanner),
       (.main, .goGraceful (prodServer h hosts) 60000000000),
       (.main, .listenAndServeTLS (prodServer h hosts) "" "")] ∧
    (exec (.StartProd h hosts) [.main, .main, .main, .main]).coord =
      some { srv := prodServer h hosts, timeout := 60000000000, pc := .entry } ∧
    (∀ sched : List Action, ∃ e : Error,
      proj .main (exec (.StartProd h hosts) sched).trace <+:
        [.goRedirect (certManager hosts), .log .prodBanner,
         .goGraceful (prodServer h hosts) 60000000000,
         .listenAndServeTLS (prodServer h hosts) "" "",
         .listenAndServeTLSRet e, .log (.fatal e), .exit 1]) ∧
    (∀ (sp sd : List Action) (tp td : Thread) (srvp srvd : HttpServer H) (dp dd : Duration)
        (addr certFile keyFile : String),
      (tp, Event.goGraceful srvp dp) ∈ (exec (.StartProd h hosts) sp).trace →
      (td, Event.goGraceful srvd dd) ∈ (exec (.StartDev h addr certFile keyFile) sd).trace →
        srvp = prodServer h hosts ∧ dp = 60000000000 ∧ dp = 2 * dd) := by
  refine ⟨rfl, rfl, by simp [prodServer, Second], by simp [prodServer, Second],
    by simp [prodServer, Second], rfl, rfl, rfl, rfl, ?_, ?_, ?_, ?_⟩
  · simp [exec, run, init, step, StartProd, serveAndDie, State.emit, Second]
  · simp [exec, run, init, step, StartProd, serveAndDie, State.emit, Second]
  · intro sched
    refine ⟨(exec (.StartProd h hosts) sched).main.err, ?_⟩
    rw [(inv_exec _ sched).main_hist]
    have : (60 : Duration) * Second = 60000000000 := by simp [Second]
    rw [← this]
    exact List.take_prefix _ _
  · intro sp sd tp td srvp srvd dp dd addr certFile keyFile hp hd
    have h1 := main_goGraceful_args _ sp tp srvp dp hp
    have h2 := main_goGraceful_args _ sd td srvd dd hd
    simp only [Call.srv, Call.budget] at h1 h2
    rw [h1.2.2, h2.2.2]
    simp [h1.2.1, Second]

/-- Every entry of the trace belongs to the script of its thread. -/
theorem event_thread {H : Type} {c : Call H} {s : State H} (hs : Inv c s) {t : Thread}
    {e : Event H} (hm : (t, e) ∈ s.trace) :
    (t = .main ∧ e ∈ mainScript c s.main.err) ∨
    (t = .coordinator ∧ ∃ g, s.coord = some g ∧
      e ∈ gracefulScript g.srv g.timeout g.pc.sig g.pc.now g.pc.err) ∨
    (t = .redirect ∧ ∃ m err, e ∈ redirectScript m err) ∨
    (t = .runtime ∧ ∃ sig, e = .killed sig) := by
  have he : e ∈ histOf c s t := by
    rw [← proj_eq_hist hs]
    exact mem_proj_of_mem hm
  cases t with
  | main => exact Or.inl ⟨rfl, mainHist_mem he⟩
  | coordinator =>
    refine Or.inr (Or.inl ⟨rfl, ?_⟩)
    cases hc : s.coord with
    | none => simp [histOf, hc, coordHist] at he
    | some g =>
      refine ⟨g, rfl, ?_⟩
      simp only [histOf, hc, coordHist] at he
      exact List.mem_of_mem_take he
  | redirect => exact Or.inr (Or.inr (Or.inl ⟨rfl, redirectHist_mem he⟩))
  | runtime => exact Or.inr (Or.inr (Or.inr ⟨rfl, runtimeHist_mem he⟩))

theorem shutdown_of_coordinator {H : Type} {c : Call H} {s : State H} (hs : Inv c s)
    {t : Thread} {e : Event H} (hm : (t, e) ∈ s.trace) (hq : e.isShutdown = true) :
    t = .coordinator ∧ ∃ now, e = .shutdown c.srv (now + c.budget) := by
  rcases event_thread hs hm with ⟨_, h⟩ | ⟨ht, g, hg, h⟩ | ⟨_, m, err, h⟩ | ⟨_, sig, h⟩
  · have hall : (mainScript c s.main.err).all (fun e => !e.isShutdown) = true := by
      cases c <;> rfl
    have := List.all_eq_true.mp hall e h
    simp [hq] at this
  · refine ⟨ht, g.pc.now, ?_⟩
    obtain ⟨h1, h2⟩ := hs.coord_args g hg
    rw [← h1, ← h2]
    simp only [gracefulScript, List.mem_cons, List.mem_singleton, List.not_mem_nil,
      or_false] at h
    rcases h with h | h | h | h | h | h | h | h | h <;> subst h <;>
      first
      | rfl
      | simp [Event.isShutdown] at hq
  · simp [redirectScript] at h
    rcases h with h | h | h | h <;> subst h <;> simp [Event.isShutdown] at hq
  · subst h
    simp [Event.isShutdown] at hq

theorem launch_of_main {H : Type} {c : Call H} {s : State H} (hs : Inv c s)
    {t : Thread} {e : Event H} (hm : (t, e) ∈ s.trace)
    (hq : (e.isGoGraceful || e.isServeCall) = true) : t = .main := by
  rcases event_thread hs hm with ⟨ht, _⟩ | ⟨_, g, _, h⟩ | ⟨_, m, err, h⟩ | ⟨_, sig, h⟩
  · exact ht
  · have hall : (gracefulScript g.srv g.timeout g.pc.sig g.pc.now g.pc.err).all
        (fun e => !(e.isGoGraceful || e.isServeCall)) = true := rfl
    have := List.all_eq_true.mp hall e h
    simp [hq] at this
  · have hall : (redirectScript m err : List (Event H)).all
        (fun e => !(e.isGoGraceful || e.isServeCall)) = true := rfl
    have := List.all_eq_true.mp hall e h
    simp [hq] at this
  · subst h
    simp [Event.isGoGraceful, Event.isServeCall] at hq

theorem banner_first {H : Type} (c : Call H) (sched : List Action)
    (pre : List (Thread × Event H)) (x : Thread × Event H) (post : List (Thread × Event H))
    (heq : (exec c sched).trace = pre ++ x :: post)
    (hq : (x.2.isGoGraceful || x.2.isServeCall) = true) :
    (Thread.main, Event.log c.banner) ∈ pre := by
  have hs := inv_exec c sched
  obtain ⟨t, e⟩ := x
  have hm : (t, e) ∈ (exec c sched).trace := by rw [heq]; simp
  have ht := launch_of_main hs hm hq
  subst ht
  obtain ⟨y, hy, hp⟩ := ordered_main hs (fun y => y = .log c.banner)
    (fun y => (y.isGoGraceful || y.isServeCall) = true)
    (by cases c <;>
          simp [mainScript, Ordered, Event.isGoGraceful, Event.isServeCall, Call.banner])
    pre e post heq hq
  subst hp
  exact hy

theorem begin_before_shutdown {H : Type} (c : Call H) (sched : List Action)
    (pre : List (Thread × Event H)) (x : Thread × Event H) (post : List (Thread × Event H))
    (heq : (exec c sched).trace = pre ++ x :: post) (hq : x.2.isShutdown = true) :
    ∃ now, x = (.coordinator, .shutdown c.srv (now + c.budget)) ∧
      (Thread.coordinator, Event.withTimeout now c.budget) ∈ pre ∧
      (Thread.coordinator, Event.log (.shuttingDown c.budget)) ∈ pre := by
  have hs := inv_exec c sched
  obtain ⟨t, e⟩ := x
  have hm : (t, e) ∈ (exec c sched).trace := by rw [heq]; simp
  obtain ⟨ht, now, he⟩ := shutdown_of_coordinator hs hm hq
  subst ht
  refine ⟨now, by rw [he], ?_, ?_⟩
  · obtain ⟨y, hy, hp⟩ := ordered_coord hs (fun y => y = .withTimeout now c.budget)
      (fun y => y = .shutdown c.srv (now + c.budget))
      (by
        intro g hg
        obtain ⟨h1, h2⟩ := hs.coord_args g hg
        rw [h1, h2]
        simp [gracefulScript, Ordered])
      pre e post heq he
    subst hp
    exact hy
  · obtain ⟨y, hy, hp⟩ := ordered_coord hs (fun y => y = .log (.shuttingDown c.budget))
      (fun y => y = .shutdown c.srv (now + c.budget))
      (by
        intro g hg
        obtain ⟨h1, h2⟩ := hs.coord_args g hg
        rw [h1, h2]
        simp [gracefulScript, Ordered])
      pre e post heq he
    subst hp
    exact hy

/-- C9, as the claim states it, fails: the startup line of `StartProd` is
the fixed text `Running production server...`, which does not mention the
listen address `:https`. -/
theorem C9_prod_banner_lacks_address :
    logLines (exec (Call.StartProd () ["example.com"]) [.main, .main, .main, .main]).trace =
      ["Running production server..."] ∧
    (prodServer () ["example.com"]).Addr = ":https" ∧
    ¬ Mentions "Running production server..." ":https" := by
  decide

/-- C9, amended: the startup line of `StartDev` mentions the listen address
and the mode; the startup line of `StartProd` is the fixed text
`Running production server...`, which mentions the mode only; in every run
of either launcher the startup line is written before the coordinator is
started and before `ListenAndServeTLS` is called; and for every drain
budget the shutdown-begin line is `Server shutting down, timeout: `
followed by the rendering of that budget (`30s` for the budget of
`StartDev`) and is written before `srv.Shutdown` is called. -/
theorem C9_log_content {H : Type} :
    (∀ addr : String, Mentions (LogEntry.devBanner addr).text addr ∧
      Mentions (LogEntry.devBanner addr).text "development") ∧
    (LogEntry.prodBanner.text = "Running production server..." ∧
      Mentions LogEntry.prodBanner.text "production") ∧
    (∀ (h : H) (addr certFile keyFile : String) (sched : List Action) pre x post,
      (exec (.StartDev h addr certFile keyFile) sched).trace = pre ++ x :: post →
      (x.2.isGoGraceful || x.2.isServeCall) = true →
      (Thread.main, Event.log (.devBanner addr)) ∈ pre) ∧
    (∀ (h : H) (hosts : List String) (sched : List Action) pre x post,
      (exec (.StartProd h hosts) sched).trace = pre ++ x :: post →
      (x.2.isGoGraceful || x.2.isServeCall) = true →
      (Thread.main, Event.log .prodBanner) ∈ pre) ∧
    (∀ (c : Call H) (sched : List Action) pre x post,
      (exec c sched).trace = pre ++ x :: post → x.2.isShutdown = true →
      (Thread.coordinator, Event.log (.shuttingDown c.budget)) ∈ pre) ∧
    (∀ (srv : HttpServer H) (timeout : Duration) (h : H) (addr certFile keyFile : String)
        (hosts : List String),
      (Call.graceful srv timeout).budget = timeout ∧
      (Call.StartDev h addr certFile keyFile).budget = 30000000000 ∧
      (Call.StartProd h hosts).budget = 60000000000) ∧
    (∀ timeout : Duration,
      (LogEntry.shuttingDown timeout).text =
        "Server shutting down, timeout: " ++ durationString timeout ∧
      Mentions (LogEntry.shuttingDown timeout).text (durationString timeout)) ∧
    (LogEntry.shuttingDown 30000000000).text = "Server shutting down, timeout: 30s" := by
  refine ⟨?_, ⟨rfl, by decide⟩, ?_, ?_, ?_, ?_, ?_, by decide⟩
  · intro addr
    refine ⟨?_, ?_⟩
    · simp only [Mentions, LogEntry.text, String.data_append]
      exact List.IsSuffix.isInfix (List.suffix_append _ _)
    · simp only [Mentions, LogEntry.text, String.data_append]
      refine ⟨"Running ".data, " server on: https://".data ++ addr.data, ?_⟩
      simp
  · intro h addr certFile keyFile sched pre x post heq hq
    exact banner_first _ sched pre x post heq hq
  · intro h hosts sched pre x post heq hq
    exact banner_first _ sched pre x post heq hq
  · intro c sched pre x post heq hq
    obtain ⟨now, _, _, h3⟩ := begin_before_shutdown c sched pre x post heq hq
    exact h3
  · intro srv timeout h addr certFile keyFile hosts
    simp [Call.budget, Second]
  · intro timeout
    refine ⟨rfl, ?_⟩
    simp only [Mentions, LogEntry.text, String.data_append]
    exact List.IsSuffix.isInfix (List.suffix_append _ _)

/-- C10: in every run, a call of `srv.Shutdown` is made on the server the
coordinator was given, with the deadline `now + timeout`, where `now` is
the clock reading `context.WithTimeout` took after the signal was received
and `timeout` is the budget given at launch (30s by `StartDev`, 60s by
`StartProd`); the shutdown-begin line written before it reports that same
budget; the coordinator's budget and server are the launch values at every
point of every run; and for every clock reading the call with that deadline
does happen. -/
theorem C10_deadline_is_now_plus_budget {H : Type} :
    (∀ (c : Call H) (sched : List Action) pre x post,
      (exec c sched).trace = pre ++ x :: post → x.2.isShutdown = true →
      ∃ now : Time, x = (.coordinator, .shutdown c.srv (now + c.budget)) ∧
        (Thread.coordinator, Event.withTimeout now c.budget) ∈ pre ∧
        (Thread.coordinator, Event.log (.shuttingDown c.budget)) ∈ pre) ∧
    (∀ (c : Call H) (sched : List Action) (g : Coordinator H),
      (exec c sched).coord = some g → g.srv = c.srv ∧ g.timeout = c.budget) ∧
    (∀ (c : Call H) (sched : List Action) (x : Thread × Event H),
      x ∈ (exec c sched).trace → x.2.isBeginLog = true →
      x = (.coordinator, .log (.shuttingDown c.budget))) ∧
    (∀ (srv : HttpServer H) (timeout : Duration) (h : H) (addr certFile keyFile : String)
        (hosts : List String),
      (Call.graceful srv timeout).budget = timeout ∧
      (Call.graceful srv timeout).srv = srv ∧
      (Call.StartDev h addr certFile keyFile).budget = 30000000000 ∧
      (Call.StartDev h addr certFile keyFile).srv = devServer h addr ∧
      (Call.StartProd h hosts).budget = 60000000000 ∧
      (Call.StartProd h hosts).srv = prodServer h hosts) ∧
    (∀ (srv : HttpServer H) (timeout : Duration) (sig : Signal) (now : Time),
      sig ≠ .other →
      (exec (.graceful srv timeout) [.coordinator, .coordinator, .signal sig,
          .coordinator, .clock now, .coordinator, .coordinator]).trace =
        [(.coordinator, .makeChan 1), (.coordinator, .notify [.interrupt, .sigterm]),
         (.coordinator, .recv sig), (.coordinator, .withTimeout now timeout),
         (.coordinator, .log (.shuttingDown timeout)),
         (.coordinator, .shutdown srv (now + timeout))]) := by
  refine ⟨?_, ?_, ?_, ?_, ?_⟩
  · intro c sched pre x post heq hq
    exact begin_before_shutdown c sched pre x post heq hq
  · intro c sched g hg
    exact (inv_exec c sched).coord_args g hg
  · intro c sched x hx hq
    have hs := inv_exec c sched
    obtain ⟨t, e⟩ := x
    rcases event_thread hs hx with ⟨_, h⟩ | ⟨ht, g, hg, h⟩ | ⟨_, m, err, h⟩ | ⟨_, sig, h⟩
    · have hall : (mainScript c (exec c sched).main.err).all (fun e => !e.isBeginLog) = true := by
        cases c <;> rfl
      have := List.all_eq_true.mp hall e h
      simp only at hq
      simp [hq] at this
    · subst ht
      obtain ⟨h1, h2⟩ := hs.coord_args g hg
      rw [← h2]
      simp only [gracefulScript, List.mem_cons, List.mem_singleton, List.not_mem_nil,
        or_false] at h
      rcases h with h | h | h | h | h | h | h | h | h <;> subst h <;>
        first
        | rfl
        | (simp [Event.isBeginLog] at hq; done)
        | (cases herr : g.pc.err <;> simp [herr, outcome, Event.isBeginLog] at hq)
    · simp [redirectScript] at h
      rcases h with h | h | h | h <;> subst h <;> simp [Event.isBeginLog] at hq
    · subst h
      simp [Event.isBeginLog] at hq
  · intro srv timeout h addr certFile keyFile hosts
    simp [Call.budget, Call.srv, Second]
  · intro srv timeout sig now hsig
    cases sig with
    | other => exact (hsig rfl).elim
    | interrupt => simp [exec, run, init, step, graceful, deliver, State.emit]
    | sigterm => simp [exec, run, init, step, graceful, deliver, State.emit]

theorem run_exited {H : Type} (c : Call H) (rest : List Action) :
    ∀ s : State H, s.exit.isSome = true → run c s rest = s := by
  induction rest with
  | nil => intro s _; rfl
  | cons a rest ih =>
    intro s hs
    have : step c s a = s := by simp [step, hs]
    show run c (step c s a) rest = s
    rw [this]
    exact ih s hs

theorem exec_append {H : Type} (c : Call H) (a b : List Action) :
    exec c (a ++ b) = run c (exec c a) b := by
  simp [exec, run, List.foldl_append]

/-- C3, at the failing input: in the production scenario, after the SIGTERM
the coordinator calls `srv.Shutdown` with the deadline 60 seconds ahead;
the serve call returns the server-closed error, the launcher prints it and
exits with status 1 while `srv.Shutdown` has not returned.  The log holds
no failure line, and no later action changes anything. -/
theorem C3_exit_while_draining :
    (exec prodScenario prodCutOff).exit = some (.code 1) ∧
    logLines (exec prodScenario prodCutOff).trace =
      ["Running production server...", "Server shutting down, timeout: 1m0s",
       "http: Server closed"] ∧
    (exec prodScenario prodCutOff).coord =
      some { srv := prodServer () ["example.com"], timeout := 60000000000,
             pc := .stopping .sigterm 5000000000 } ∧
    (Thread.coordinator, Event.shutdown (prodServer () ["example.com"]) 65000000000) ∈
      (exec prodScenario prodCutOff).trace ∧
    (exec prodScenario prodCutOff).trace.getLast? = some (.main, .exit 1) ∧
    (∀ rest : List Action,
      exec prodScenario (prodCutOff ++ rest) = exec prodScenario prodCutOff) := by
  refine ⟨by decide, by decide, by decide, by decide, by decide, ?_⟩
  intro rest
  rw [exec_append]
  exact run_exited _ rest _ (by decide)

end server
